import Mathlib

/-!
A verification development for the fictionflow pipeline (a TypeScript CLI that
drafts a story, obtains two judge critiques, aggregates them into a revision
plan, revises, runs a retell probe, and decides publication against fixed
thresholds).

Shallow embedding conventions:
* JavaScript strings are modelled as `List Char` (named `Str` below); the
  relevant JS string primitives (`trim`, `startsWith`, `toLowerCase`,
  `split`, `padStart`, anchored-regex replaces) are translated to list
  operations on `Str`.
* JS numbers reaching the gate and the temperature plumbing are modelled as
  rationals; the code only adds, halves and compares them, which is exact.
* Filesystem writes are modelled as updates to a map from path to content;
  filesystem primitives themselves are modelled as infallible - only model
  backend calls (and JSON validation) can fail.
* Model backends are treated as black boxes: a call is represented by the request record the
  router hands to the provider SDK, and judge responses are supplied as
  inputs.
-/

namespace FictionFlow

/-- JS strings, modelled as lists of characters. -/
abbrev Str := List Char

/-- JS `String.prototype.trim`, left part: drop leading whitespace. -/
def trimLeftL (s : Str) : Str := s.dropWhile Char.isWhitespace

/-- JS `String.prototype.trim`, right part: drop trailing whitespace. -/
def trimRightL (s : Str) : Str := (s.reverse.dropWhile Char.isWhitespace).reverse

/-- JS `String.prototype.trim`. -/
def trimL (s : Str) : Str := trimRightL (trimLeftL s)

/-- JS `String.prototype.toLowerCase` (ASCII range, which is all the code compares). -/
def lowerL (s : Str) : Str := s.map Char.toLower

/-- The characters of the opening fence with language tag, `"```json"`. -/
def fenceJsonOpen : Str := "```json".data

/-- The characters of a bare fence marker, `"```"`. -/
def fenceMark : Str := "```".data

/-- Model of `cleaned.replace(/\s*```$/, "")` from `parseJson` (src/src/cli.ts:42,44):
if the text ends with a closing fence, remove it together with the whitespace
run immediately before it; otherwise leave the text unchanged. -/
def stripClosingFence (s : Str) : Str :=
  if fenceMark.isSuffixOf s then trimRightL (s.take (s.length - 3)) else s

/-- The code-fence preprocessing of `parseJson` (src/src/cli.ts:40-45):
trim, then if the text starts with ```` ```json ```` drop that marker and the
whitespace after it (`replace(/^```json\s*/, "")`), else if it starts with a
bare ```` ``` ```` drop that marker and the whitespace after it, and in either
fenced case also strip the closing fence. -/
def cleanRaw (raw : Str) : Str :=
  let c := trimL raw
  if fenceJsonOpen.isPrefixOf c then stripClosingFence ((c.drop 7).dropWhile Char.isWhitespace)
  else if fenceMark.isPrefixOf c then stripClosingFence ((c.drop 3).dropWhile Char.isWhitespace)
  else c

/-- A payload wrapped in a markdown code fence with the `json` language tag:
```` ```json ````, newline, the payload, newline, ```` ``` ````. -/
def fencedJson (payload : Str) : Str :=
  fenceJsonOpen ++ ('\n' :: (payload ++ ('\n' :: fenceMark)))

/-- A payload wrapped in a bare markdown code fence. -/
def fencedBare (payload : Str) : Str :=
  fenceMark ++ ('\n' :: (payload ++ ('\n' :: fenceMark)))

/-! ## Data model of judge documents (src/schemas, `src/unnamed/part_000`) -/

/-- The four rating dimensions of a critique (`Ratings` zod shape). -/
structure Ratings where
  clarity : ℚ
  stakes : ℚ
  momentum : ℚ
  ending_resonance : ℚ
deriving DecidableEq

/-- A confusion/strength entry (`QuoteWhy` zod shape). -/
structure QuoteWhy where
  quote : Str
  why : Str
  fix_hint : Option Str
deriving DecidableEq

/-- A judge critique document (`Critique` zod shape). -/
structure Critique where
  retell : Str
  stakes : Str
  confusions : List QuoteWhy
  strengths : List QuoteWhy
  ratings : Ratings
deriving DecidableEq

/-- A judge retell document (`Retell` zod shape). -/
structure Retell where
  retell : Str
deriving DecidableEq

/-! ## Gate decision engine (`handleGate`, src/src/cli.ts:469-531) -/

/-- The fixed gate thresholds (src/src/cli.ts:493). -/
def minScores : Ratings := ⟨1, 1, 3 / 2, 1⟩

/-- The fixed confusion cap (src/src/cli.ts:494). -/
def maxConfusions : Nat := 15

/-- The diagnostic and decision outputs of the gate. -/
structure GateResult where
  avgRatings : Ratings
  totalConfusions : Nat
  retellMatch : Bool
  publish : Bool
deriving DecidableEq

/-- The pure computation of `handleGate` (src/src/cli.ts:477-504): average the
ratings of the two critiques per dimension, add the confusion counts, compare the
trimmed lowercased retells, and publish iff all four averages meet `minScores`
and the confusion total is at most `maxConfusions`.  The retell comparison
feeds only the diagnostic `retellMatch` field. -/
def decideGate (critiqueA critiqueB : Critique) (retellA retellB : Retell) : GateResult :=
  let avgRatings : Ratings :=
    ⟨(critiqueA.ratings.clarity + critiqueB.ratings.clarity) / 2,
     (critiqueA.ratings.stakes + critiqueB.ratings.stakes) / 2,
     (critiqueA.ratings.momentum + critiqueB.ratings.momentum) / 2,
     (critiqueA.ratings.ending_resonance + critiqueB.ratings.ending_resonance) / 2⟩
  let totalConfusions := critiqueA.confusions.length + critiqueB.confusions.length
  let retellMatch := lowerL (trimL retellA.retell) == lowerL (trimL retellB.retell)
  let scoresPass :=
    decide (minScores.clarity ≤ avgRatings.clarity) &&
    decide (minScores.stakes ≤ avgRatings.stakes) &&
    decide (minScores.momentum ≤ avgRatings.momentum) &&
    decide (minScores.ending_resonance ≤ avgRatings.ending_resonance)
  let confusionsPass := decide (totalConfusions ≤ maxConfusions)
  ⟨avgRatings, totalConfusions, retellMatch, scoresPass && confusionsPass⟩

/-! ## Model invocation gateway (`callModel`, src/src/lib/model-router.ts:52-120) -/

/-- The three provider SDK clients the router can dispatch to. -/
inductive Backend where
  | openaiB
  | anthropicB
  | openrouterB
deriving DecidableEq

/-- The `responseFormat` field of a `ModelCall`. -/
inductive RespFormat where
  | text
  | json
deriving DecidableEq

/-- The request record the router hands to the chosen provider SDK: which
client, the model name, the effective temperature, the max-token bound (the
anthropic and openrouter calls pass 4096, the openai call passes none), the
system prompt as sent, and the user prompt. -/
structure BackendCall where
  backend : Backend
  modelName : Str
  temperature : ℚ
  maxTokens : Option Nat
  systemUsed : Option Str
  userPrompt : Str
deriving DecidableEq

/-- Model of `model.split("/")[0]` (src/src/lib/model-router.ts:56-57): the text before
the first `/`, or the whole string when there is no `/`. -/
def providerOf (model : Str) : Str := model.takeWhile (fun c => !(c == '/'))

/-- Model of `parts.slice(1).join("/")` (src/src/lib/model-router.ts:58): splitting on
`/` and rejoining everything after the first segment is the text after the
first `/` (empty when there is no `/`), so the model name may itself
contain `/`. -/
def modelNameOf (model : Str) : Str := (model.dropWhile (fun c => !(c == '/'))).drop 1

/-- The high-determinism model-name marker `"gpt-5"` (src/src/lib/model-router.ts:64). -/
def gpt5Marker : Str := "gpt-5".data

/-- The error text for an unrecognized provider (src/src/lib/model-router.ts:118). -/
def unknownProviderMsg (provider : Str) : Str :=
  "Unknown provider: ".data ++ provider ++
    ". Use format: provider/model-name (openai/, anthropic/, openrouter/)".data

/-- The router `callModel` (src/src/lib/model-router.ts:52-120) as a pure function: parse
the provider off the model identifier and either build the request record for
the matching backend or fail with the unknown-provider error.  The openai arm
forces temperature 1 for `gpt-5`-prefixed model names; the anthropic and
openrouter arms force temperature 0 for `"json"` response format; the
anthropic arm defaults a missing system prompt to the empty string. -/
def callModel (model : Str) (systemPrompt : Option Str) (userPrompt : Str)
    (temperature : ℚ) (responseFormat : RespFormat) : Except Str BackendCall :=
  let provider := providerOf model
  let modelName := modelNameOf model
  if provider = "openai".data then
    .ok ⟨.openaiB, modelName,
      (if gpt5Marker.isPrefixOf modelName then 1 else temperature),
      none, systemPrompt, userPrompt⟩
  else if provider = "anthropic".data then
    .ok ⟨.anthropicB, modelName,
      (if responseFormat = .json then 0 else temperature),
      some 4096, some (systemPrompt.getD []), userPrompt⟩
  else if provider = "openrouter".data then
    .ok ⟨.openrouterB, modelName,
      (if responseFormat = .json then 0 else temperature),
      some 4096, systemPrompt, userPrompt⟩
  else .error (unknownProviderMsg provider)

/-- The three provider names `callModel` recognizes. -/
def knownProviders : List Str := ["openai".data, "anthropic".data, "openrouter".data]

/-! ## Structured-response validation with diagnostics (`parseJson`,
src/src/cli.ts:32-57) and the retry-once pattern of the judge calls
(`handleCritique`, src/src/cli.ts:213-229). -/

/-- The run-directory file contents, as a map from path to written text. -/
def Store : Type := Str → Option Str

/-- Model of `fs.writeFile`: record `v` at path `p`, overwriting any previous content. -/
def Store.put (st : Store) (p v : Str) : Store := fun q => if q = p then some v else st q

/-- A store with no files written yet. -/
def emptyStore : Store := fun _ => none

/-- Model of `outputPath.replace(/\.json$/, "_raw.txt")` (src/src/cli.ts:50): the
diagnostics path the raw text of a failed attempt is saved to. -/
def rawPathOf (p : Str) : Str :=
  if ".json".data.isSuffixOf p then p.take (p.length - 5) ++ "_raw.txt".data else p

/-- One `parseJson` attempt with `retry = false` (src/src/cli.ts:32-57): strip
any code fence, run the JSON parse plus zod schema check (abstracted as a
single `validate` function since both are external libraries), and on failure
write the raw text to the diagnostics path before signalling the failure. -/
def parseJsonAttempt {α : Type} (validate : Str → Option α) (raw outputPath : Str)
    (st : Store) : Option α × Store :=
  match validate (cleanRaw raw) with
  | some v => (some v, st)
  | none => (none, st.put (rawPathOf outputPath) raw)

/-- The strict-JSON reminder appended on the critique/aggregate retry
(src/src/cli.ts:222). -/
def jsonReminder : Str := "\n\nPlease return valid JSON matching the schema.".data

/-- The outcome of one judge call with the retry-once pattern: the validated
document if any attempt succeeded, the resulting file contents, and the user
prompts sent to the backend in order. -/
structure JudgeOutcome (α : Type) where
  result : Option α
  store : Store
  calls : List Str

/-- The retry-once pattern of `handleCritique` (src/src/cli.ts:204-229), also
used by the aggregate and retell stages: call the model, validate via
`parseJsonAttempt`; on success write the validated document to `outPath`; on
failure issue exactly one further call whose user prompt is the original with
`reminder` appended, validate that, and give up if it fails too.  `respond`
maps a user prompt to the raw reply of the model (system prompt, temperature and
response format are unchanged between the two calls, so they are folded into
`respond`). -/
def runJudge {α : Type} (respond : Str → Str) (validate : Str → Option α)
    (render : α → Str) (story reminder outPath : Str) (st : Store) : JudgeOutcome α :=
  let raw1 := respond story
  match parseJsonAttempt validate raw1 outPath st with
  | (some v, st1) => ⟨some v, st1.put outPath (render v), [story]⟩
  | (none, st1) =>
    let raw2 := respond (story ++ reminder)
    match parseJsonAttempt validate raw2 outPath st1 with
    | (some v, st2) => ⟨some v, st2.put outPath (render v), [story, story ++ reminder]⟩
    | (none, st2) => ⟨none, st2, [story, story ++ reminder]⟩

/-! ## The RevisionPlan schema (`Plan`, src/unnamed/part_000:24-45) -/

/-- A `must_fix` item: issue, evidence quotes, and a type that the schema
constrains to the enum `structural` or `line`. -/
structure MustFixItem where
  issue : Str
  evidence : List Str
  type : Str
deriving DecidableEq

/-- A `revision_plan` action item. -/
structure RevisionAction where
  action : Str
  target_span : Str
  success_metric : Str
deriving DecidableEq

/-- The advisory `gate` block embedded in a plan. -/
structure GateField where
  min_avg_scores : Ratings
  max_confusions : ℚ
deriving DecidableEq

/-- A parsed-but-unvalidated plan document, as it comes out of `JSON.parse`:
the two defaulted arrays may be absent (`Option`), the rest is required. -/
structure PlanDoc where
  must_fix : Option (List MustFixItem)
  optional : Option (List Str)
  revision_plan : List RevisionAction
  gate : GateField
deriving DecidableEq

/-- A schema-validated plan. -/
structure Plan where
  must_fix : List MustFixItem
  optional : List Str
  revision_plan : List RevisionAction
  gate : GateField
deriving DecidableEq

/-- The `z.enum(["structural","line"])` check on the type of a must-fix item. -/
def validType (t : Str) : Bool := t == "structural".data || t == "line".data

/-- Model of `Plan.parse` (src/unnamed/part_000:24-45): apply the `[]` defaults for the
two optional arrays, require every must-fix type to be in the enum, and
require `revision_plan` to have at most 3 entries (`.max(3)`); a document
violating either check is rejected, and the lists of an accepted document are
passed through unchanged, never truncated. -/
def planParse (d : PlanDoc) : Option Plan :=
  let mf := d.must_fix.getD []
  if mf.all (fun m => validType m.type) && decide (d.revision_plan.length ≤ 3) then
    some ⟨mf, d.optional.getD [], d.revision_plan, d.gate⟩
  else none

/-! ## Run-directory numbering (`determineNextRunDir`, src/src/cli.ts:84-112) -/

/-- Decimal rendering with explicit fuel (any fuel above the input suffices,
see `valFrom_natDigitsF`). -/
def natDigitsF : Nat → Nat → Str
  | 0, _ => []
  | fuel + 1, n =>
    if n < 10 then [Nat.digitChar n]
    else natDigitsF fuel (n / 10) ++ [Nat.digitChar (n % 10)]

/-- Decimal rendering of a natural number, as JS `String(next)` produces it. -/
def natDigits (n : Nat) : Str := natDigitsF (n + 1) n

/-- Model of `String(next).padStart(3, "0")` (src/src/cli.ts:104). -/
def pad3 (n : Nat) : Str := List.replicate (3 - (natDigits n).length) '0' ++ natDigits n

/-- The numeric value of a digit character. -/
def digitVal (c : Char) : Nat := c.toNat - 48

/-- The number denoted by a digit string; a left inverse of `pad3`, used to
show distinct indices get distinct directory names. -/
def valOf (s : Str) : Nat := s.foldl (fun a c => a * 10 + digitVal c) 0

/-- The `entry.match(/^(\d{3})/)` + `parseInt` step (src/src/cli.ts:90,96):
the value of the first three characters when they are all decimal digits. -/
def prefix3 (name : Str) : Option Nat :=
  match name with
  | a :: b :: c :: _ =>
    if a.isDigit && b.isDigit && c.isDigit then
      some ((a.toNat - 48) * 100 + (b.toNat - 48) * 10 + (c.toNat - 48))
    else none
  | _ => none

/-- One step of the max-prefix scan (src/src/cli.ts:89-100): an entry
contributes its three-digit prefix value only when it is a directory and the
prefix parses. -/
def scanStep (m : Nat) (e : Str × Bool) : Nat :=
  if e.2 then
    match prefix3 e.1 with
    | some k => Nat.max m k
    | none => m
  else m

/-- The `maxIndex` accumulated over the entries of the base directory, each entry
given as its name paired with whether it is a directory; starts at 0. -/
def maxIndex (entries : List (Str × Bool)) : Nat := entries.foldl scanStep 0

/-- Model of `fs.pathExists(path.join(baseOut, index))` (src/src/cli.ts:106): a path
exists iff some entry (file or directory) has exactly that name. -/
def existsName (entries : List (Str × Bool)) (s : Str) : Bool :=
  entries.any (fun e => e.1 == s)

/-- The collision loop of `determineNextRunDir` (src/src/cli.ts:102-111),
written with explicit fuel: starting at `n`, advance while the zero-padded
candidate name already exists.  `findFree_spec` shows that fuel
`entries.length + 1` always suffices to reach the least free index. -/
def findFree (entries : List (Str × Bool)) : Nat → Nat → Nat
  | 0, n => n
  | fuel + 1, n => if existsName entries (pad3 n) then findFree entries fuel (n + 1) else n

/-- Model of `determineNextRunDir` (src/src/cli.ts:84-112): scan for the maximal
three-digit directory prefix, then claim the first unused zero-padded index
starting from max + 1; returns the claimed index and its directory name. -/
def determineNextRunDir (entries : List (Str × Bool)) : Nat × Str :=
  let n := findFree entries (entries.length + 1) (maxIndex entries + 1)
  (n, pad3 n)

/-! ## The cycle controller (`handleRun`, src/src/cli.ts:533-715) -/

/-- The per-cycle behaviour of the external world: what each model-backed
stage does when the controller reaches it in that cycle.  A `.error` means
the stage throws (for the four structured stages this is the
post-retry `parseJson` failure or a transport error; for `titleGen` a
transport error in `generateTitle`). -/
structure CycleEvents where
  critique : Except Str (Critique × Critique)
  aggregate : Except Str Unit
  revise : Except Str Unit
  retellPair : Except Str (Retell × Retell)
  titleGen : Except Str Str

/-- What one execution of the cycle body does, up to and including the
try-block around the gate. -/
inductive CycleBodyResult where
  | crashedB (msg : Str)
  | publishedB (title : Str)
  | tryFailed (reason : Str)
deriving DecidableEq

/-- The `"Gate failed"` error `handleGate` throws when invoked from a run
(src/src/cli.ts:529). -/
def gateFailedMsg : Str := "Gate failed".data

/-- The `null` reason recorded when the loop exits without ever setting a
failure reason (unreachable for a positive cycle cap). -/
def nullReason : Str := "null".data

/-- One execution of the cycle body (src/src/cli.ts:557-672): critique,
aggregate and revise run outside any try/catch, so a throw from them escapes
the loop (`crashedB`); so does a throw from retell.  The gate and the
publication steps (title generation, artifact writes) run inside the
try-block: a failed gate or a throwing publication step becomes `tryFailed`,
which the catch-arm turns into either the next cycle or the terminal failure. -/
def runCycleBody (e : CycleEvents) : CycleBodyResult :=
  match e.critique with
  | .error m => .crashedB m
  | .ok (critiqueA, critiqueB) =>
    match e.aggregate with
    | .error m => .crashedB m
    | .ok _ =>
      match e.revise with
      | .error m => .crashedB m
      | .ok _ =>
        match e.retellPair with
        | .error m => .crashedB m
        | .ok (retellA, retellB) =>
          if (decideGate critiqueA critiqueB retellA retellB).publish then
            match e.titleGen with
            | .ok title => .publishedB title
            | .error m => .tryFailed m
          else .tryFailed gateFailedMsg

/-- How the `while (cycle < maxCycles)` loop ends. -/
inductive LoopExit where
  | publishedE (title : Str)
  | gaveUp (reason : Str)
  | crashedE (msg : Str)
deriving DecidableEq

/-- The cycle loop (src/src/cli.ts:557-673), with fuel standing for the
remaining loop-guard budget (`fuel = maxCycles - cycle` at entry, so the guard
`cycle < maxCycles` is `fuel > 0`).  Returns the number of times the body was
entered together with how the loop ended: a gate/publication failure on a
non-final cycle loops, on the final cycle it records the failure reason and
gives up (src/src/cli.ts:662-671). -/
def loopGo (ev : Nat → CycleEvents) (maxCycles : Nat) : Nat → Nat → Nat → Nat × LoopExit
  | 0, _cycle, bodies => (bodies, .gaveUp nullReason)
  | fuel + 1, cycle, bodies =>
    match runCycleBody (ev (cycle + 1)) with
    | .crashedB m => (bodies + 1, .crashedE m)
    | .publishedB title => (bodies + 1, .publishedE title)
    | .tryFailed m =>
      if cycle + 1 < maxCycles then loopGo ev maxCycles fuel (cycle + 1) (bodies + 1)
      else (bodies + 1, .gaveUp m)

/-- A terminal metadata record (`10-metadata.json`), in its success shape
(src/src/cli.ts:627-639) or failure shape (src/src/cli.ts:692-705). -/
inductive MetaRecord where
  | success (title : Str)
  | failure (reason : Str)
deriving DecidableEq

/-- How a run ends: published, terminally failed, or aborted by an uncaught
stage exception (a crashed process). -/
inductive RunResult where
  | published (title : Str)
  | failedRun (reason : Str)
  | crashed (msg : Str)
deriving DecidableEq

/-- What a run left behind: how many times the cycle body ran, the terminal
metadata records written into the claimed run directory, and the result. -/
structure RunOutcome where
  bodyCount : Nat
  metadata : List MetaRecord
  result : RunResult
deriving DecidableEq

/-- Model of `handleRun` from the point where the run directory has been claimed
(src/src/cli.ts:537-715): draft, then the cycle loop with `maxCycles = 2`.
A published exit wrote the success metadata record inside the loop
(src/src/cli.ts:627); a gave-up exit writes the failure record after the loop
(src/src/cli.ts:692); an uncaught stage exception leaves the claimed
directory with no terminal record at all. -/
def handleRunModel (draft : Except Str Unit) (ev : Nat → CycleEvents) : RunOutcome :=
  match draft with
  | .error m => ⟨0, [], .crashed m⟩
  | .ok _ =>
    let r := loopGo ev 2 2 0 0
    match r.2 with
    | .publishedE title => ⟨r.1, [.success title], .published title⟩
    | .gaveUp reason => ⟨r.1, [.failure reason], .failedRun reason⟩
    | .crashedE m => ⟨r.1, [], .crashed m⟩

/-! ## Shared helper lemmas -/

theorem length_dropWhile_le (p : Char → Bool) (l : Str) :
    (l.dropWhile p).length ≤ l.length := by
  induction l with
  | nil => simp
  | cons a l ih =>
    simp only [List.dropWhile_cons]
    split
    · exact Nat.le_succ_of_le ih
    · simp

theorem head_false_of_dropWhile_eq_self {p : Char → Bool} {a : Char} {l : Str}
    (h : (a :: l).dropWhile p = a :: l) : p a = false := by
  by_contra hpa
  rw [List.dropWhile_cons, if_pos (by revert hpa; cases p a <;> simp)] at h
  have := length_dropWhile_le p l
  rw [h] at this
  simp at this

theorem dropWhile_append_of_fixed {p : Char → Bool} {s : Str} (t : Str)
    (hne : s ≠ []) (hfix : s.dropWhile p = s) :
    (s ++ t).dropWhile p = s ++ t := by
  cases s with
  | nil => exact absurd rfl hne
  | cons a l =>
    have ha := head_false_of_dropWhile_eq_self hfix
    rw [List.cons_append, List.dropWhile_cons, if_neg (by simp [ha])]

/-! ## C1: the gate decision -/

/-- C1: for any two critiques and two retells, `decideGate` averages each
rating dimension, sums the confusion counts, and publishes exactly when the
four averages meet the fixed thresholds 1, 1, 3/2, 1 and the confusion total
is at most 15; the retell-match flag is the trim-then-lowercase equality of
the two retells but never affects the publish decision. -/
theorem gate_decision_spec (critiqueA critiqueB : Critique) (retellA retellB : Retell) :
    (decideGate critiqueA critiqueB retellA retellB).avgRatings.clarity
      = (critiqueA.ratings.clarity + critiqueB.ratings.clarity) / 2 ∧
    (decideGate critiqueA critiqueB retellA retellB).avgRatings.stakes
      = (critiqueA.ratings.stakes + critiqueB.ratings.stakes) / 2 ∧
    (decideGate critiqueA critiqueB retellA retellB).avgRatings.momentum
      = (critiqueA.ratings.momentum + critiqueB.ratings.momentum) / 2 ∧
    (decideGate critiqueA critiqueB retellA retellB).avgRatings.ending_resonance
      = (critiqueA.ratings.ending_resonance + critiqueB.ratings.ending_resonance) / 2 ∧
    (decideGate critiqueA critiqueB retellA retellB).totalConfusions
      = critiqueA.confusions.length + critiqueB.confusions.length ∧
    (decideGate critiqueA critiqueB retellA retellB).retellMatch
      = (lowerL (trimL retellA.retell) == lowerL (trimL retellB.retell)) ∧
    ((decideGate critiqueA critiqueB retellA retellB).publish = true ↔
      (1 : ℚ) ≤ (decideGate critiqueA critiqueB retellA retellB).avgRatings.clarity ∧
      (1 : ℚ) ≤ (decideGate critiqueA critiqueB retellA retellB).avgRatings.stakes ∧
      (3 / 2 : ℚ) ≤ (decideGate critiqueA critiqueB retellA retellB).avgRatings.momentum ∧
      (1 : ℚ) ≤ (decideGate critiqueA critiqueB retellA retellB).avgRatings.ending_resonance ∧
      (decideGate critiqueA critiqueB retellA retellB).totalConfusions ≤ 15) ∧
    (∀ retellA' retellB' : Retell,
      (decideGate critiqueA critiqueB retellA' retellB').publish
        = (decideGate critiqueA critiqueB retellA retellB).publish) := by
  refine ⟨rfl, rfl, rfl, rfl, rfl, rfl, ?_, fun _ _ => rfl⟩
  simp only [decideGate, minScores, maxConfusions, Bool.and_eq_true, decide_eq_true_eq,
    and_assoc]

/-- C1 witness: a concrete gate instance where the scores and confusion
conditions hold but the two retells are unrelated strings: the gate still
publishes while reporting no retell match. -/
theorem gate_decision_spec_witness :
    (decideGate ⟨"r".data, "s".data, [], [], ⟨2, 2, 2, 2⟩⟩
        ⟨"r".data, "s".data, [], [], ⟨2, 2, 2, 2⟩⟩
        ⟨"An apple story.".data⟩ ⟨"Unrelated zebra text!".data⟩).publish = true ∧
    (decideGate ⟨"r".data, "s".data, [], [], ⟨2, 2, 2, 2⟩⟩
        ⟨"r".data, "s".data, [], [], ⟨2, 2, 2, 2⟩⟩
        ⟨"An apple story.".data⟩ ⟨"Unrelated zebra text!".data⟩).retellMatch = false := by
  have h := gate_decision_spec ⟨"r".data, "s".data, [], [], ⟨2, 2, 2, 2⟩⟩
    ⟨"r".data, "s".data, [], [], ⟨2, 2, 2, 2⟩⟩
    ⟨"An apple story.".data⟩ ⟨"Unrelated zebra text!".data⟩
  refine ⟨h.2.2.2.2.2.2.1.mpr ⟨?_, ?_, ?_, ?_, ?_⟩, ?_⟩
  · rw [h.1]; norm_num
  · rw [h.2.1]; norm_num
  · rw [h.2.2.1]; norm_num
  · rw [h.2.2.2.1]; norm_num
  · rw [h.2.2.2.2.1]; decide
  · rw [h.2.2.2.2.2.1]; decide

/-! ## C6, C7, C10: the model router -/

theorem callModel_openai_eval (model : Str) (sys : Option Str) (user : Str)
    (temp : ℚ) (fmt : RespFormat) (h : providerOf model = "openai".data) :
    callModel model sys user temp fmt = .ok ⟨.openaiB, modelNameOf model,
      (if gpt5Marker.isPrefixOf (modelNameOf model) then 1 else temp), none, sys, user⟩ := by
  simp [callModel, h]

theorem callModel_anthropic_eval (model : Str) (sys : Option Str) (user : Str)
    (temp : ℚ) (fmt : RespFormat) (h : providerOf model = "anthropic".data) :
    callModel model sys user temp fmt = .ok ⟨.anthropicB, modelNameOf model,
      (if fmt = .json then 0 else temp), some 4096, some (sys.getD []), user⟩ := by
  rw [callModel]
  simp only [h]
  rw [if_neg (by decide)]
  simp

theorem callModel_openrouter_eval (model : Str) (sys : Option Str) (user : Str)
    (temp : ℚ) (fmt : RespFormat) (h : providerOf model = "openrouter".data) :
    callModel model sys user temp fmt = .ok ⟨.openrouterB, modelNameOf model,
      (if fmt = .json then 0 else temp), some 4096, sys, user⟩ := by
  rw [callModel]
  simp only [h]
  rw [if_neg (by decide), if_neg (by decide)]
  simp

/-- C6: `callModel` parses the provider as the text before the first `/` and
the model name as the remainder; an identifier whose provider is none of
`openai`, `anthropic`, `openrouter` fails with an error whose text contains
the offending provider and all three accepted provider names, and no backend
request record is produced; each of the three known providers produces a
request record for its own backend, and the three backends are pairwise
distinct. -/
theorem callModel_provider_routing (model : Str) (sys : Option Str) (user : Str)
    (temp : ℚ) (fmt : RespFormat) :
    (providerOf model ∉ knownProviders →
      callModel model sys user temp fmt = .error (unknownProviderMsg (providerOf model)) ∧
      providerOf model <:+: unknownProviderMsg (providerOf model) ∧
      "openai".data <:+: unknownProviderMsg (providerOf model) ∧
      "anthropic".data <:+: unknownProviderMsg (providerOf model) ∧
      "openrouter".data <:+: unknownProviderMsg (providerOf model)) ∧
    (providerOf model = "openai".data →
      callModel model sys user temp fmt = .ok ⟨.openaiB, modelNameOf model,
        (if gpt5Marker.isPrefixOf (modelNameOf model) then 1 else temp), none, sys, user⟩) ∧
    (providerOf model = "anthropic".data →
      callModel model sys user temp fmt = .ok ⟨.anthropicB, modelNameOf model,
        (if fmt = .json then 0 else temp), some 4096, some (sys.getD []), user⟩) ∧
    (providerOf model = "openrouter".data →
      callModel model sys user temp fmt = .ok ⟨.openrouterB, modelNameOf model,
        (if fmt = .json then 0 else temp), some 4096, sys, user⟩) ∧
    (Backend.openaiB ≠ Backend.anthropicB ∧ Backend.openaiB ≠ Backend.openrouterB ∧
      Backend.anthropicB ≠ Backend.openrouterB) := by
  refine ⟨?_, ?_, ?_, ?_, by decide, by decide, by decide⟩
  · intro h
    simp only [knownProviders, List.mem_cons, List.not_mem_nil, or_false, not_or] at h
    obtain ⟨h1, h2, h3⟩ := h
    refine ⟨by simp [callModel, h1, h2, h3], ⟨"Unknown provider: ".data, _, rfl⟩, ?_, ?_, ?_⟩
    all_goals
      refine List.IsInfix.trans
        (show _ <:+:
          ". Use format: provider/model-name (openai/, anthropic/, openrouter/)".data
          by decide)
        ⟨"Unknown provider: ".data ++ providerOf model, [], by
          simp [unknownProviderMsg]⟩
  · exact callModel_openai_eval model sys user temp fmt
  · exact callModel_anthropic_eval model sys user temp fmt
  · exact callModel_openrouter_eval model sys user temp fmt

/-- C6 witness: `bogus/model` is rejected with the unknown-provider error. -/
theorem callModel_provider_routing_witness :
    callModel "bogus/model".data none "p".data 0 .text
      = .error (unknownProviderMsg (providerOf "bogus/model".data)) :=
  ((callModel_provider_routing "bogus/model".data none "p".data 0 .text).1 (by decide)).1

/-- C7: on the openai provider, a model name beginning with `gpt-5` forces the
effective temperature to 1 regardless of the requested temperature. -/
theorem callModel_gpt5_temperature (model : Str) (sys : Option Str) (user : Str)
    (temp : ℚ) (fmt : RespFormat)
    (hprov : providerOf model = "openai".data)
    (hname : gpt5Marker.isPrefixOf (modelNameOf model) = true) :
    callModel model sys user temp fmt
      = .ok ⟨.openaiB, modelNameOf model, 1, none, sys, user⟩ := by
  rw [callModel_openai_eval model sys user temp fmt hprov, hname]
  simp

/-- C7 witness: requesting temperature 7/10 against `openai/gpt-5` yields an
effective temperature of 1. -/
theorem callModel_gpt5_temperature_witness :
    callModel "openai/gpt-5".data none "p".data (7 / 10) .text
      = .ok ⟨.openaiB, modelNameOf "openai/gpt-5".data, 1, none, none, "p".data⟩ :=
  callModel_gpt5_temperature "openai/gpt-5".data none "p".data (7 / 10) .text
    (by decide) (by decide)

/-- C10: on the anthropic and openrouter providers, a `json` response format
forces the effective temperature to 0 regardless of the requested
temperature, while a `text` response format passes the requested temperature
through. -/
theorem callModel_json_temperature (model : Str) (sys : Option Str) (user : Str)
    (temp : ℚ) :
    (providerOf model = "anthropic".data →
      callModel model sys user temp .json = .ok ⟨.anthropicB, modelNameOf model, 0,
        some 4096, some (sys.getD []), user⟩ ∧
      callModel model sys user temp .text = .ok ⟨.anthropicB, modelNameOf model, temp,
        some 4096, some (sys.getD []), user⟩) ∧
    (providerOf model = "openrouter".data →
      callModel model sys user temp .json = .ok ⟨.openrouterB, modelNameOf model, 0,
        some 4096, sys, user⟩ ∧
      callModel model sys user temp .text = .ok ⟨.openrouterB, modelNameOf model, temp,
        some 4096, sys, user⟩) := by
  constructor
  · intro h
    have h1 := callModel_anthropic_eval model sys user temp .json h
    have h2 := callModel_anthropic_eval model sys user temp .text h
    rw [if_pos rfl] at h1
    rw [if_neg (by decide)] at h2
    exact ⟨h1, h2⟩
  · intro h
    have h1 := callModel_openrouter_eval model sys user temp .json h
    have h2 := callModel_openrouter_eval model sys user temp .text h
    rw [if_pos rfl] at h1
    rw [if_neg (by decide)] at h2
    exact ⟨h1, h2⟩

/-- C10 witness: a json-format call to `anthropic/claude-x` requesting
temperature 7/10 is dispatched at temperature 0. -/
theorem callModel_json_temperature_witness :
    callModel "anthropic/claude-x".data none "p".data (7 / 10) .json
      = .ok ⟨.anthropicB, modelNameOf "anthropic/claude-x".data, 0, some 4096,
          some [], "p".data⟩ :=
  ((callModel_json_temperature "anthropic/claude-x".data none "p".data (7 / 10)).1
    (by decide)).1

/-! ## C9: the RevisionPlan schema cap -/

/-- C9: `Plan.parse` rejects every document whose `revision_plan` has more
than 3 entries, and a document with at most 3 entries (whose must-fix types
are within the enum) validates with its `revision_plan` passed through
unchanged - never truncated. -/
theorem plan_revision_cap (d : PlanDoc) :
    (3 < d.revision_plan.length → planParse d = none) ∧
    ((d.must_fix.getD []).all (fun m => validType m.type) = true →
      d.revision_plan.length ≤ 3 →
      planParse d = some ⟨d.must_fix.getD [], d.optional.getD [], d.revision_plan, d.gate⟩
        ∧ (planParse d).map Plan.revision_plan = some d.revision_plan) := by
  constructor
  · intro hlen
    rw [planParse, if_neg]
    simp [decide_eq_true_eq]
    omega
  · intro htypes hlen
    have : planParse d
        = some ⟨d.must_fix.getD [], d.optional.getD [], d.revision_plan, d.gate⟩ := by
      rw [planParse, if_pos]
      simp [htypes, decide_eq_true_eq, hlen]
    exact ⟨this, by rw [this]; rfl⟩

/-- C9 witness: a four-entry revision plan is rejected by the schema, and the
same document cut to two entries validates with both entries preserved. -/
theorem plan_revision_cap_witness :
    planParse ⟨none, none,
        [⟨"a1".data, "t1".data, "m1".data⟩, ⟨"a2".data, "t2".data, "m2".data⟩,
         ⟨"a3".data, "t3".data, "m3".data⟩, ⟨"a4".data, "t4".data, "m4".data⟩],
        ⟨⟨1, 1, 3 / 2, 1⟩, 15⟩⟩ = none ∧
    planParse ⟨none, none,
        [⟨"a1".data, "t1".data, "m1".data⟩, ⟨"a2".data, "t2".data, "m2".data⟩],
        ⟨⟨1, 1, 3 / 2, 1⟩, 15⟩⟩ = some ⟨[], [],
        [⟨"a1".data, "t1".data, "m1".data⟩, ⟨"a2".data, "t2".data, "m2".data⟩],
        ⟨⟨1, 1, 3 / 2, 1⟩, 15⟩⟩ :=
  ⟨(plan_revision_cap _).1 (by decide),
   ((plan_revision_cap _).2 (by decide) (by decide)).1⟩

/-! ## C8: code-fence stripping -/

theorem dropWhile_eq_self_of_length {p : Char → Bool} {l : Str}
    (h : (l.dropWhile p).length = l.length) : l.dropWhile p = l := by
  induction l with
  | nil => simp
  | cons a l ih =>
    rw [List.dropWhile_cons]
    split
    · rename_i hpa
      rw [List.dropWhile_cons, if_pos hpa] at h
      have := length_dropWhile_le p l
      simp at h
      omega
    · rfl

theorem trimL_fix_parts {s : Str} (h : trimL s = s) :
    s.dropWhile Char.isWhitespace = s ∧ s.reverse.dropWhile Char.isWhitespace = s.reverse := by
  have hlen1 : (trimLeftL s).length ≤ s.length := length_dropWhile_le _ s
  have hlen2 : (trimRightL (trimLeftL s)).length ≤ (trimLeftL s).length := by
    rw [trimRightL, List.length_reverse]
    calc ((trimLeftL s).reverse.dropWhile Char.isWhitespace).length
        ≤ (trimLeftL s).reverse.length := length_dropWhile_le _ _
      _ = (trimLeftL s).length := List.length_reverse _
  have hL : trimLeftL s = s := by
    apply dropWhile_eq_self_of_length
    show (trimLeftL s).length = s.length
    have hs := congrArg List.length h
    rw [trimL] at hs
    omega
  have hR : trimRightL s = s := by rw [trimL, hL] at h; exact h
  refine ⟨hL, ?_⟩
  have := congrArg List.reverse hR
  rwa [trimRightL, List.reverse_reverse] at this

theorem trimRightL_append_of_fixed (A B : Str) (hne : B ≠ [])
    (hfix : B.reverse.dropWhile Char.isWhitespace = B.reverse) :
    trimRightL (A ++ B) = A ++ B := by
  rw [trimRightL, List.reverse_append,
    dropWhile_append_of_fixed _ (by simpa using hne) hfix,
    ← List.reverse_append, List.reverse_reverse]

theorem trimRightL_append_newline {payload : Str}
    (hright : payload.reverse.dropWhile Char.isWhitespace = payload.reverse) :
    trimRightL (payload ++ ['\n']) = payload := by
  rw [trimRightL, List.reverse_append, List.reverse_singleton, List.singleton_append,
    List.dropWhile_cons, if_pos (by decide), hright, List.reverse_reverse]

theorem isPrefixOf_append_self (p t : Str) : p.isPrefixOf (p ++ t) = true := by
  rw [List.isPrefixOf_iff_prefix]
  exact List.prefix_append p t

theorem isSuffixOf_append_self (p t : Str) : p.isSuffixOf (t ++ p) = true := by
  rw [List.isSuffixOf_iff_suffix]
  exact List.suffix_append t p

theorem stripClosingFence_payload {payload : Str}
    (hright : payload.reverse.dropWhile Char.isWhitespace = payload.reverse) :
    stripClosingFence (payload ++ ('\n' :: fenceMark)) = payload := by
  have hsplit : payload ++ ('\n' :: fenceMark) = (payload ++ ['\n']) ++ fenceMark := by
    simp
  rw [stripClosingFence, if_pos (by rw [hsplit]; exact isSuffixOf_append_self _ _)]
  have hlen : (payload ++ ('\n' :: fenceMark)).length - 3 = (payload ++ ['\n']).length := by
    have h3 : fenceMark.length = 3 := by decide
    simp only [List.length_append, List.length_cons, h3, List.length_nil]
    omega
  rw [hlen, hsplit, List.take_left, trimRightL_append_newline hright]

theorem fenceMark_isPrefixOf_of_json {s : Str}
    (h : fenceJsonOpen.isPrefixOf s = true) : fenceMark.isPrefixOf s = true := by
  rw [List.isPrefixOf_iff_prefix] at h ⊢
  exact List.IsPrefix.trans (by decide) h

theorem cleanRaw_of_trimmed {payload : Str} (htrim : trimL payload = payload)
    (hfence : fenceMark.isPrefixOf payload = false) :
    cleanRaw payload = payload := by
  rw [cleanRaw]
  have hjson : fenceJsonOpen.isPrefixOf (trimL payload) = false := by
    rw [htrim]
    cases hj : fenceJsonOpen.isPrefixOf payload
    · rfl
    · rw [fenceMark_isPrefixOf_of_json hj] at hfence
      exact hfence
  rw [htrim] at hjson ⊢
  rw [if_neg (by simp [hjson]), if_neg (by simp [hfence])]

theorem cleanRaw_fencedJson {payload : Str} (htrim : trimL payload = payload)
    (hne : payload ≠ []) :
    cleanRaw (fencedJson payload) = payload := by
  obtain ⟨hleft, hright⟩ := trimL_fix_parts htrim
  have htrimF : trimL (fencedJson payload) = fencedJson payload := by
    have h1 : trimLeftL (fencedJson payload) = fencedJson payload := by
      rw [fencedJson, trimLeftL]
      exact dropWhile_append_of_fixed _ (by decide) (by decide)
    have h2 : fencedJson payload
        = (fenceJsonOpen ++ ('\n' :: (payload ++ ['\n']))) ++ fenceMark := by
      simp [fencedJson]
    rw [trimL, h1, h2]
    exact trimRightL_append_of_fixed _ _ (by decide) (by decide)
  rw [cleanRaw, htrimF, if_pos (by rw [fencedJson]; exact isPrefixOf_append_self _ _)]
  have hdrop : (fencedJson payload).drop 7 = '\n' :: (payload ++ ('\n' :: fenceMark)) := by
    rw [fencedJson, show (7 : Nat) = fenceJsonOpen.length from rfl, List.drop_left]
  rw [hdrop, List.dropWhile_cons, if_pos (by decide),
    dropWhile_append_of_fixed _ hne hleft, stripClosingFence_payload hright]

theorem cleanRaw_fencedBare {payload : Str} (htrim : trimL payload = payload)
    (hne : payload ≠ []) :
    cleanRaw (fencedBare payload) = payload := by
  obtain ⟨hleft, hright⟩ := trimL_fix_parts htrim
  have htrimF : trimL (fencedBare payload) = fencedBare payload := by
    have h1 : trimLeftL (fencedBare payload) = fencedBare payload := by
      rw [fencedBare, trimLeftL]
      exact dropWhile_append_of_fixed _ (by decide) (by decide)
    have h2 : fencedBare payload
        = (fenceMark ++ ('\n' :: (payload ++ ['\n']))) ++ fenceMark := by
      simp [fencedBare]
    rw [trimL, h1, h2]
    exact trimRightL_append_of_fixed _ _ (by decide) (by decide)
  have hjson : fenceJsonOpen.isPrefixOf (fencedBare payload) = false := by
    cases hb : fenceJsonOpen.isPrefixOf (fencedBare payload)
    · rfl
    · exfalso
      rw [List.isPrefixOf_iff_prefix] at hb
      obtain ⟨t, ht⟩ := hb
      have h4 := congrArg (List.take 4) ht
      have hrhs : (fencedBare payload).take 4 = fenceMark ++ ['\n'] := by
        have hsplit : fencedBare payload
            = (fenceMark ++ ['\n']) ++ (payload ++ ('\n' :: fenceMark)) := by
          simp [fencedBare]
        rw [hsplit, show (4 : Nat) = (fenceMark ++ ['\n']).length from by decide,
          List.take_left]
      rw [List.take_append_of_le_length (by decide), hrhs] at h4
      exact absurd h4 (by decide)
  rw [cleanRaw, htrimF, if_neg (by simp [hjson]),
    if_pos (by rw [fencedBare]; exact isPrefixOf_append_self _ _)]
  have hdrop : (fencedBare payload).drop 3 = '\n' :: (payload ++ ('\n' :: fenceMark)) := by
    rw [fencedBare, show (3 : Nat) = fenceMark.length from rfl, List.drop_left]
  rw [hdrop, List.dropWhile_cons, if_pos (by decide),
    dropWhile_append_of_fixed _ hne hleft, stripClosingFence_payload hright]

/-- C8: for any validator and any trimmed nonempty payload that does not
itself start with a fence marker (every JSON value qualifies), `parseJson`
applied to the payload wrapped in a ```` ```json ```` fence, or in a bare
```` ``` ```` fence, returns the same validated value as `parseJson` applied
to the bare payload: the fence preprocessing reduces all three inputs to the
identical cleaned text. -/
theorem parseJson_fence_invariance {α : Type} (validate : Str → Option α)
    (payload outputPath : Str) (st : Store)
    (htrim : trimL payload = payload) (hne : payload ≠ [])
    (hfence : fenceMark.isPrefixOf payload = false) :
    (parseJsonAttempt validate (fencedJson payload) outputPath st).1
      = (parseJsonAttempt validate payload outputPath st).1 ∧
    (parseJsonAttempt validate (fencedBare payload) outputPath st).1
      = (parseJsonAttempt validate payload outputPath st).1 ∧
    cleanRaw (fencedJson payload) = cleanRaw payload ∧
    cleanRaw (fencedBare payload) = cleanRaw payload := by
  have h0 := cleanRaw_of_trimmed htrim hfence
  have h1 := cleanRaw_fencedJson htrim hne
  have h2 := cleanRaw_fencedBare htrim hne
  refine ⟨?_, ?_, by rw [h1, h0], by rw [h2, h0]⟩
  all_goals
    rw [parseJsonAttempt, parseJsonAttempt]
    first
      | rw [h1, h0]
      | rw [h2, h0]
    cases validate payload <;> rfl

/-- C8 witness: the fenced and unfenced forms of the concrete payload
`\x7b"retell":"x"\x7d` validate identically. -/
theorem parseJson_fence_invariance_witness :
    (parseJsonAttempt (fun s => some s) (fencedJson "\x7b\"retell\":\"x\"\x7d".data)
        "o.json".data emptyStore).1
      = (parseJsonAttempt (fun s => some s) "\x7b\"retell\":\"x\"\x7d".data
        "o.json".data emptyStore).1 :=
  (parseJson_fence_invariance (fun s => some s) "\x7b\"retell\":\"x\"\x7d".data
    "o.json".data emptyStore (by decide) (by decide) (by decide)).1

/-! ## C5: run-directory numbering -/

theorem digitVal_digitChar {d : Nat} (h : d < 10) : digitVal (Nat.digitChar d) = d := by
  interval_cases d <;> rfl

theorem valFrom_natDigitsF : ∀ (fuel n : Nat), n < fuel → ∀ a : Nat,
    (natDigitsF fuel n).foldl (fun a c => a * 10 + digitVal c) a
      = a * 10 ^ (natDigitsF fuel n).length + n := by
  intro fuel
  induction fuel with
  | zero => omega
  | succ fuel ih =>
    intro n hn a
    rw [natDigitsF]
    by_cases h : n < 10
    · rw [if_pos h]
      simp [digitVal_digitChar h]
    · rw [if_neg h]
      have hdivlt : n / 10 < n := Nat.div_lt_self (by omega) (by omega)
      have hdiv : n / 10 < fuel := by omega
      rw [List.foldl_append, ih (n / 10) hdiv a]
      simp only [List.foldl_cons, List.foldl_nil, List.length_append, List.length_cons,
        List.length_nil]
      rw [digitVal_digitChar (by omega)]
      have hpow : 10 ^ ((natDigitsF fuel (n / 10)).length + (0 + 1))
          = 10 ^ (natDigitsF fuel (n / 10)).length * 10 := by
        rw [Nat.zero_add, pow_succ]
      rw [hpow]
      have : (a * 10 ^ (natDigitsF fuel (n / 10)).length + n / 10) * 10 + n % 10
          = a * (10 ^ (natDigitsF fuel (n / 10)).length * 10) + (n / 10 * 10 + n % 10) := by
        ring
      rw [this]
      omega

theorem foldl_digit_replicate_zero : ∀ k : Nat,
    (List.replicate k '0').foldl (fun a c => a * 10 + digitVal c) 0 = 0 := by
  intro k
  induction k with
  | zero => rfl
  | succ k ih => rw [List.replicate_succ, List.foldl_cons]; simpa using ih

theorem valOf_pad3 (n : Nat) : valOf (pad3 n) = n := by
  rw [valOf, pad3, List.foldl_append, foldl_digit_replicate_zero, natDigits,
    valFrom_natDigitsF (n + 1) n (by omega) 0]
  simp

theorem pad3_injective : Function.Injective pad3 := by
  intro a b h
  have := congrArg valOf h
  rwa [valOf_pad3, valOf_pad3] at this

theorem foldl_scanStep_ge : ∀ (l : List (Str × Bool)) (m : Nat), m ≤ l.foldl scanStep m := by
  intro l
  induction l with
  | nil => simp
  | cons e l ih =>
    intro m
    refine le_trans ?_ (ih (scanStep m e))
    rw [scanStep]
    split
    · split
      · exact Nat.le_max_left _ _
      · exact le_refl m
    · exact le_refl m

theorem foldl_scanStep_ub : ∀ (l : List (Str × Bool)) (m : Nat) (name : Str) (k : Nat),
    (name, true) ∈ l → prefix3 name = some k → k ≤ l.foldl scanStep m := by
  intro l
  induction l with
  | nil => simp
  | cons e l ih =>
    intro m name k hmem hpre
    rw [List.foldl_cons]
    rcases List.mem_cons.mp hmem with heq | htail
    · refine le_trans ?_ (foldl_scanStep_ge l (scanStep m e))
      rw [← heq, scanStep]
      simp only [hpre]
      exact Nat.le_max_right _ _
    · exact ih (scanStep m e) name k htail hpre

theorem foldl_scanStep_attained : ∀ (l : List (Str × Bool)) (m : Nat),
    l.foldl scanStep m = m ∨
      ∃ name, (name, true) ∈ l ∧ prefix3 name = some (l.foldl scanStep m) := by
  intro l
  induction l with
  | nil => intro m; exact Or.inl rfl
  | cons e l ih =>
    intro m
    obtain ⟨ename, eb⟩ := e
    rw [List.foldl_cons]
    rcases ih (scanStep m (ename, eb)) with heq | ⟨name, hmem, hpre⟩
    · rw [heq]
      cases eb with
      | false => exact Or.inl (by simp [scanStep])
      | true =>
        cases hpre : prefix3 ename with
        | none => exact Or.inl (by rw [scanStep]; simp [hpre])
        | some k =>
          have hstep : scanStep m (ename, true) = Nat.max m k := by
            rw [scanStep]
            simp [hpre]
          rw [hstep]
          rcases Nat.le_total k m with hle | hle
          · exact Or.inl (Nat.max_eq_left hle)
          · exact Or.inr ⟨ename, List.mem_cons_self _ _,
              hpre.trans (congrArg some (Nat.max_eq_right hle).symm)⟩
    · exact Or.inr ⟨name, List.mem_cons_of_mem _ hmem, hpre⟩

theorem exists_free_slot (entries : List (Str × Bool)) (start : Nat) :
    ∃ k, k < entries.length + 1 ∧ existsName entries (pad3 (start + k)) = false := by
  by_contra hcon
  push_neg at hcon
  simp only [Bool.not_eq_false] at hcon
  have hnodup : ((List.range (entries.length + 1)).map (fun k => pad3 (start + k))).Nodup :=
    List.Nodup.map (fun a b hab => by have := pad3_injective hab; omega)
      (List.nodup_range _)
  have hsub : ∀ s ∈ (List.range (entries.length + 1)).map (fun k => pad3 (start + k)),
      s ∈ entries.map Prod.fst := by
    intro s hs
    obtain ⟨k, hk, rfl⟩ := List.mem_map.mp hs
    have hk' : k < entries.length + 1 := List.mem_range.mp hk
    have hex := hcon k hk'
    rw [existsName, List.any_eq_true] at hex
    obtain ⟨e, he, heq⟩ := hex
    exact List.mem_map.mpr ⟨e, he, beq_iff_eq.mp heq⟩
  have h1 := List.toFinset_card_of_nodup hnodup
  have h2 : ((List.range (entries.length + 1)).map (fun k => pad3 (start + k))).toFinset
      ⊆ (entries.map Prod.fst).toFinset := by
    intro x hx
    exact List.mem_toFinset.mpr (hsub x (List.mem_toFinset.mp hx))
  have h3 := Finset.card_le_card h2
  have h4 := (entries.map Prod.fst).toFinset_card_le
  simp only [List.length_map, List.length_range] at h1 h3 h4
  omega

theorem findFree_spec (entries : List (Str × Bool)) : ∀ (fuel n : Nat),
    (∃ k, k < fuel ∧ existsName entries (pad3 (n + k)) = false) →
    n ≤ findFree entries fuel n ∧
    existsName entries (pad3 (findFree entries fuel n)) = false ∧
    ∀ m, n ≤ m → m < findFree entries fuel n → existsName entries (pad3 m) = true := by
  intro fuel
  induction fuel with
  | zero =>
    intro n h
    obtain ⟨k, hk, _⟩ := h
    omega
  | succ fuel ih =>
    intro n h
    rw [findFree]
    cases hex : existsName entries (pad3 n) with
    | false =>
      rw [if_neg (by simp [hex])]
      exact ⟨le_refl n, hex, fun m hm1 hm2 => by omega⟩
    | true =>
      rw [if_pos rfl]
      have h' : ∃ k, k < fuel ∧ existsName entries (pad3 (n + 1 + k)) = false := by
        obtain ⟨k, hk, hfree⟩ := h
        cases k with
        | zero => rw [Nat.add_zero] at hfree; rw [hfree] at hex; cases hex
        | succ k' =>
          refine ⟨k', by omega, ?_⟩
          have : n + 1 + k' = n + (k' + 1) := by omega
          rw [this]
          exact hfree
      obtain ⟨h1, h2, h3⟩ := ih (n + 1) h'
      refine ⟨by omega, h2, ?_⟩
      intro m hm1 hm2
      rcases Nat.eq_or_lt_of_le hm1 with heq | hlt
      · rw [← heq]; exact hex
      · exact h3 m hlt hm2

/-- C5: `determineNextRunDir` claims the smallest index `n` at or above
`maxIndex + 1` whose zero-padded name is not an existing entry of the base
directory (so the created directory did not previously exist), returns that
name as the zero-padded rendering of `n`, and `maxIndex` is the largest
three-digit numeric prefix among the directory-typed entries, or 0 when no
such entry exists. -/
theorem determineNextRunDir_spec (entries : List (Str × Bool)) :
    maxIndex entries + 1 ≤ (determineNextRunDir entries).1 ∧
    existsName entries (pad3 (determineNextRunDir entries).1) = false ∧
    (∀ m, maxIndex entries + 1 ≤ m → m < (determineNextRunDir entries).1 →
      existsName entries (pad3 m) = true) ∧
    (determineNextRunDir entries).2 = pad3 (determineNextRunDir entries).1 ∧
    (∀ name k, (name, true) ∈ entries → prefix3 name = some k → k ≤ maxIndex entries) ∧
    (maxIndex entries = 0 ∨
      ∃ name, (name, true) ∈ entries ∧ prefix3 name = some (maxIndex entries)) := by
  obtain ⟨h1, h2, h3⟩ := findFree_spec entries (entries.length + 1) (maxIndex entries + 1)
    (exists_free_slot entries (maxIndex entries + 1))
  exact ⟨h1, h2, h3, rfl, fun name k hmem hpre => foldl_scanStep_ub entries 0 name k hmem hpre,
    foldl_scanStep_attained entries 0⟩

/-- C5 witness: with existing directories `001_foo` and `002_failed`, the next
run claims index 3, directory name `003`, which did not previously exist. -/
theorem determineNextRunDir_spec_witness :
    determineNextRunDir [("001_foo".data, true), ("002_failed".data, true)]
      = (3, "003".data) ∧
    existsName [("001_foo".data, true), ("002_failed".data, true)]
      (pad3 (determineNextRunDir [("001_foo".data, true), ("002_failed".data, true)]).1)
      = false := by
  have h := determineNextRunDir_spec [("001_foo".data, true), ("002_failed".data, true)]
  exact ⟨by decide, h.2.1⟩

/-! ## C4: retry-once semantics of the judge calls -/

/-- C4 (amended): on a first validation failure the raw response is persisted
to the diagnostics path and exactly one retry is issued, identical to the
first call except that the reminder is appended to the user prompt; a
validation success returns the parsed value; if the second response also
fails validation the operation fails, but the second raw response is written
to the same diagnostics path as the first, so after a double failure the
diagnostics path holds the second raw payload (the first was overwritten);
never more than two calls are made. -/
theorem judge_retry_once {α : Type} (respond : Str → Str) (validate : Str → Option α)
    (render : α → Str) (story reminder outPath : Str) (st : Store) :
    ((runJudge respond validate render story reminder outPath st).calls = [story] ∨
      (runJudge respond validate render story reminder outPath st).calls
        = [story, story ++ reminder]) ∧
    (runJudge respond validate render story reminder outPath st).calls.length ≤ 2 ∧
    (∀ v, validate (cleanRaw (respond story)) = some v →
      (runJudge respond validate render story reminder outPath st).result = some v ∧
      (runJudge respond validate render story reminder outPath st).calls = [story]) ∧
    (validate (cleanRaw (respond story)) = none →
      (runJudge respond validate render story reminder outPath st).calls
        = [story, story ++ reminder] ∧
      (parseJsonAttempt validate (respond story) outPath st).2 (rawPathOf outPath)
        = some (respond story) ∧
      (validate (cleanRaw (respond (story ++ reminder))) = none →
        (runJudge respond validate render story reminder outPath st).result = none ∧
        (runJudge respond validate render story reminder outPath st).store
          (rawPathOf outPath) = some (respond (story ++ reminder)))) := by
  cases h1 : validate (cleanRaw (respond story)) with
  | some v =>
    have hr : runJudge respond validate render story reminder outPath st
        = ⟨some v, Store.put st outPath (render v), [story]⟩ := by
      rw [runJudge]
      simp [parseJsonAttempt, h1]
    rw [hr]
    refine ⟨Or.inl rfl, by simp, ?_, ?_⟩
    · intro w hw
      cases hw
      exact ⟨rfl, rfl⟩
    · intro hcon
      cases hcon
  | none =>
    cases h2 : validate (cleanRaw (respond (story ++ reminder))) with
    | some v =>
      have hr : runJudge respond validate render story reminder outPath st
          = ⟨some v, Store.put (Store.put st (rawPathOf outPath) (respond story))
              outPath (render v), [story, story ++ reminder]⟩ := by
        rw [runJudge]
        simp [parseJsonAttempt, h1, h2]
      rw [hr]
      refine ⟨Or.inr rfl, by simp, ?_, ?_⟩
      · intro w hw
        cases hw
      · intro _
        refine ⟨rfl, by simp [parseJsonAttempt, h1, Store.put], ?_⟩
        intro hcon
        cases hcon
    | none =>
      have hr : runJudge respond validate render story reminder outPath st
          = ⟨none, Store.put (Store.put st (rawPathOf outPath) (respond story))
              (rawPathOf outPath) (respond (story ++ reminder)),
              [story, story ++ reminder]⟩ := by
        rw [runJudge]
        simp [parseJsonAttempt, h1, h2]
      rw [hr]
      refine ⟨Or.inr rfl, by simp, ?_, ?_⟩
      · intro w hw
        cases hw
      · intro _
        exact ⟨rfl, by simp [parseJsonAttempt, h1, Store.put],
          fun _ => ⟨rfl, by simp [Store.put]⟩⟩

/-- C4 counterexample: feeding two distinct malformed responses through the
critique retry pattern leaves the file store holding only the second raw
payload at the single diagnostics path - the first raw payload is overwritten
and is no longer retrievable anywhere, refuting the claim that the raw
payloads of both attempts remain retrievable. -/
theorem judge_retry_cex :
    (runJudge (fun p => if p = "s".data then "bad1".data else "bad2".data)
        (fun _ => (none : Option Unit)) (fun _ => []) "s".data jsonReminder
        "c.json".data emptyStore).store
      = Store.put emptyStore (rawPathOf "c.json".data) "bad2".data ∧
    "bad2".data ≠ "bad1".data ∧
    (runJudge (fun p => if p = "s".data then "bad1".data else "bad2".data)
        (fun _ => (none : Option Unit)) (fun _ => []) "s".data jsonReminder
        "c.json".data emptyStore).result = none ∧
    (runJudge (fun p => if p = "s".data then "bad1".data else "bad2".data)
        (fun _ => (none : Option Unit)) (fun _ => []) "s".data jsonReminder
        "c.json".data emptyStore).calls
      = ["s".data, "s".data ++ jsonReminder] := by
  refine ⟨?_, by decide, rfl, rfl⟩
  have hstore : (runJudge (fun p => if p = "s".data then "bad1".data else "bad2".data)
      (fun _ => (none : Option Unit)) (fun _ => []) "s".data jsonReminder
      "c.json".data emptyStore).store
      = Store.put (Store.put emptyStore (rawPathOf "c.json".data) "bad1".data)
          (rawPathOf "c.json".data) "bad2".data := rfl
  rw [hstore]
  funext q
  by_cases hq : q = rawPathOf "c.json".data <;> simp [Store.put, hq, emptyStore]

/-- C4 witness for the amended claim: on the concrete double-failure run,
exactly the two expected calls are made and the diagnostics path ends up
holding the second raw payload. -/
theorem judge_retry_once_witness :
    (runJudge (fun p => if p = "s".data then "bad1".data else "bad2".data)
        (fun _ => (none : Option Unit)) (fun _ => []) "s".data jsonReminder
        "c.json".data emptyStore).calls = ["s".data, "s".data ++ jsonReminder] ∧
    (runJudge (fun p => if p = "s".data then "bad1".data else "bad2".data)
        (fun _ => (none : Option Unit)) (fun _ => []) "s".data jsonReminder
        "c.json".data emptyStore).store (rawPathOf "c.json".data) = some "bad2".data := by
  have h := (judge_retry_once (fun p => if p = "s".data then "bad1".data else "bad2".data)
    (fun _ => (none : Option Unit)) (fun _ => []) "s".data jsonReminder
    "c.json".data emptyStore).2.2.2 rfl
  exact ⟨h.1, (h.2.2 rfl).2⟩

/-! ## C2: the cycle cap -/

theorem loopGo_bodies_le (ev : Nat → CycleEvents) (mc : Nat) :
    ∀ (fuel cycle bodies : Nat), (loopGo ev mc fuel cycle bodies).1 ≤ bodies + fuel := by
  intro fuel
  induction fuel with
  | zero => intro cycle bodies; rw [loopGo]; simp
  | succ fuel ih =>
    intro cycle bodies
    rw [loopGo]
    cases runCycleBody (ev (cycle + 1)) with
    | crashedB m => simp
    | publishedB t => simp
    | tryFailed m =>
      dsimp only
      by_cases hlt : cycle + 1 < mc
      · rw [if_pos hlt]
        have := ih (cycle + 1) (bodies + 1)
        omega
      · rw [if_neg hlt]
        simp

theorem loopGo_always_fail (ev : Nat → CycleEvents) (mc : Nat)
    (hall : ∀ c, runCycleBody (ev c) = .tryFailed gateFailedMsg) :
    ∀ (fuel cycle bodies : Nat), 0 < fuel → cycle + fuel = mc →
      loopGo ev mc fuel cycle bodies = (bodies + fuel, .gaveUp gateFailedMsg) := by
  intro fuel
  induction fuel with
  | zero => omega
  | succ fuel ih =>
    intro cycle bodies _ hsum
    rw [loopGo, hall (cycle + 1)]
    dsimp only
    by_cases hlt : cycle + 1 < mc
    · rw [if_pos hlt]
      have hf : 0 < fuel := by omega
      rw [ih (cycle + 1) (bodies + 1) hf (by omega)]
      have : bodies + 1 + fuel = bodies + (fuel + 1) := by omega
      rw [this]
    · rw [if_neg hlt]
      have hz : fuel = 0 := by omega
      subst hz
      rfl

theorem runCycleBody_fail_of_gate (ev : Nat → CycleEvents)
    (hcrit : ∀ c, ∃ ab, (ev c).critique = .ok ab)
    (hagg : ∀ c, (ev c).aggregate = .ok ())
    (hrev : ∀ c, (ev c).revise = .ok ())
    (hret : ∀ c, ∃ rr, (ev c).retellPair = .ok rr)
    (hgate : ∀ c critiqueA critiqueB retellA retellB,
      (ev c).critique = .ok (critiqueA, critiqueB) →
      (ev c).retellPair = .ok (retellA, retellB) →
      (decideGate critiqueA critiqueB retellA retellB).publish = false) :
    ∀ c, runCycleBody (ev c) = .tryFailed gateFailedMsg := by
  intro c
  obtain ⟨⟨critiqueA, critiqueB⟩, hc⟩ := hcrit c
  obtain ⟨⟨retellA, retellB⟩, hr⟩ := hret c
  rw [runCycleBody, hc, hagg c, hrev c, hr]
  dsimp only
  rw [hgate c critiqueA critiqueB retellA retellB hc hr]
  rfl

/-- C2: the cycle body of `handleRun` executes at most 2 times in every run;
when every stage succeeds but the gate fails on every cycle, it executes
exactly 2 times - never a 3rd - and the run terminates in the FAILED outcome
with the gate-failure reason. -/
theorem run_cycle_cap (draft : Except Str Unit) (ev : Nat → CycleEvents) :
    (handleRunModel draft ev).bodyCount ≤ 2 ∧
    (draft = .ok () →
      (∀ c, ∃ ab, (ev c).critique = .ok ab) →
      (∀ c, (ev c).aggregate = .ok ()) →
      (∀ c, (ev c).revise = .ok ()) →
      (∀ c, ∃ rr, (ev c).retellPair = .ok rr) →
      (∀ c critiqueA critiqueB retellA retellB,
        (ev c).critique = .ok (critiqueA, critiqueB) →
        (ev c).retellPair = .ok (retellA, retellB) →
        (decideGate critiqueA critiqueB retellA retellB).publish = false) →
      (handleRunModel draft ev).bodyCount = 2 ∧
      (handleRunModel draft ev).result = .failedRun gateFailedMsg) := by
  constructor
  · cases draft with
    | error m => simp [handleRunModel]
    | ok u =>
      have hle := loopGo_bodies_le ev 2 2 0 0
      rw [handleRunModel]
      cases hexit : (loopGo ev 2 2 0 0).2 <;> simpa [hexit] using hle
  · intro hdraft hcrit hagg hrev hret hgate
    subst hdraft
    have hall := runCycleBody_fail_of_gate ev hcrit hagg hrev hret hgate
    have hloop := loopGo_always_fail ev 2 hall 2 0 0 (by omega) (by omega)
    rw [handleRunModel, hloop]
    exact ⟨rfl, rfl⟩

/-- C2 witness: a concrete run whose judges rate every dimension 0 (so the
gate fails in both cycles) runs the body exactly twice and ends FAILED. -/
theorem run_cycle_cap_witness :
    (handleRunModel (.ok ()) (fun _ =>
      ⟨.ok (⟨"r".data, "s".data, [], [], ⟨0, 0, 0, 0⟩⟩,
            ⟨"r".data, "s".data, [], [], ⟨0, 0, 0, 0⟩⟩),
       .ok (), .ok (),
       .ok (⟨"r1".data⟩, ⟨"r2".data⟩), .ok "t".data⟩)).bodyCount = 2 ∧
    (handleRunModel (.ok ()) (fun _ =>
      ⟨.ok (⟨"r".data, "s".data, [], [], ⟨0, 0, 0, 0⟩⟩,
            ⟨"r".data, "s".data, [], [], ⟨0, 0, 0, 0⟩⟩),
       .ok (), .ok (),
       .ok (⟨"r1".data⟩, ⟨"r2".data⟩), .ok "t".data⟩)).result
      = .failedRun gateFailedMsg := by
  refine (run_cycle_cap (.ok ()) _).2 rfl (fun _ => ⟨_, rfl⟩) (fun _ => rfl) (fun _ => rfl)
    (fun _ => ⟨_, rfl⟩) ?_
  intro c critiqueA critiqueB retellA retellB h1 h2
  cases h1
  cases h2
  simp [decideGate, minScores]

/-! ## C3: terminal metadata discipline -/

theorem loopGo_no_crash (ev : Nat → CycleEvents) (mc : Nat)
    (hbody : ∀ c m, runCycleBody (ev c) ≠ .crashedB m) :
    ∀ (fuel cycle bodies : Nat) (m : Str),
      (loopGo ev mc fuel cycle bodies).2 ≠ .crashedE m := by
  intro fuel
  induction fuel with
  | zero =>
    intro cycle bodies m
    rw [loopGo]
    simp
  | succ fuel ih =>
    intro cycle bodies m
    rw [loopGo]
    cases hc : runCycleBody (ev (cycle + 1)) with
    | crashedB msg => exact absurd hc (hbody (cycle + 1) msg)
    | publishedB t => simp
    | tryFailed msg =>
      dsimp only
      by_cases hlt : cycle + 1 < mc
      · rw [if_pos hlt]
        exact ih (cycle + 1) (bodies + 1) m
      · rw [if_neg hlt]
        simp

theorem runCycleBody_no_crash (ev : Nat → CycleEvents)
    (hcrit : ∀ c, ∃ ab, (ev c).critique = .ok ab)
    (hagg : ∀ c, (ev c).aggregate = .ok ())
    (hrev : ∀ c, (ev c).revise = .ok ())
    (hret : ∀ c, ∃ rr, (ev c).retellPair = .ok rr) :
    ∀ c m, runCycleBody (ev c) ≠ .crashedB m := by
  intro c m
  obtain ⟨⟨critiqueA, critiqueB⟩, hc⟩ := hcrit c
  obtain ⟨⟨retellA, retellB⟩, hr⟩ := hret c
  rw [runCycleBody, hc, hagg c, hrev c, hr]
  dsimp only
  split
  · cases (ev c).titleGen <;> simp
  · simp

/-- C3 counterexample: a critique-stage failure in the first cycle - after
the run directory has been claimed - aborts the run as an uncaught exception
after one body execution, leaving the run directory with no terminal
metadata record at all; this refutes the claim that every post-claim failure,
including one raised by the critique, aggregate, revise or retell stage,
leaves a terminal record. -/
theorem run_metadata_cex :
    (handleRunModel (.ok ()) (fun _ =>
      ⟨.error "boom".data, .ok (), .ok (), .ok (⟨[]⟩, ⟨[]⟩), .ok []⟩)).metadata = [] ∧
    (handleRunModel (.ok ()) (fun _ =>
      ⟨.error "boom".data, .ok (), .ok (), .ok (⟨[]⟩, ⟨[]⟩), .ok []⟩)).result
      = .crashed "boom".data ∧
    (handleRunModel (.ok ()) (fun _ =>
      ⟨.error "boom".data, .ok (), .ok (), .ok (⟨[]⟩, ⟨[]⟩), .ok []⟩)).bodyCount = 1 :=
  ⟨rfl, rfl, rfl⟩

/-- C3 (amended): a run writes at most one terminal metadata record, and the
success and failure records are never both written; a run ends without any
terminal record exactly when a stage failure escapes as an uncaught exception
(which a draft, critique, aggregate, revise or retell failure does); whenever
the draft and the four model-backed cycle stages all return without throwing,
exactly one terminal record is written - whatever the gate and the title
generation do. -/
theorem run_metadata_discipline (draft : Except Str Unit) (ev : Nat → CycleEvents) :
    (handleRunModel draft ev).metadata.length ≤ 1 ∧
    ((∃ m, (handleRunModel draft ev).result = .crashed m) ↔
      (handleRunModel draft ev).metadata = []) ∧
    (draft = .ok () →
      (∀ c, ∃ ab, (ev c).critique = .ok ab) →
      (∀ c, (ev c).aggregate = .ok ()) →
      (∀ c, (ev c).revise = .ok ()) →
      (∀ c, ∃ rr, (ev c).retellPair = .ok rr) →
      (handleRunModel draft ev).metadata.length = 1) := by
  refine ⟨?_, ?_, ?_⟩
  · cases draft with
    | error m => simp [handleRunModel]
    | ok u =>
      rw [handleRunModel]
      cases hexit : (loopGo ev 2 2 0 0).2 <;> simp
  · cases draft with
    | error m => simp [handleRunModel]
    | ok u =>
      rw [handleRunModel]
      cases hexit : (loopGo ev 2 2 0 0).2 <;> simp
  · intro hdraft hcrit hagg hrev hret
    subst hdraft
    have hbody := runCycleBody_no_crash ev hcrit hagg hrev hret
    have hnc := loopGo_no_crash ev 2 hbody 2 0 0
    rw [handleRunModel]
    cases hexit : (loopGo ev 2 2 0 0).2 with
    | publishedE t => simp
    | gaveUp r => simp
    | crashedE m => exact absurd hexit (hnc m)

/-- C3 witness for the amended claim: a concrete run in which every stage
succeeds and the gate passes writes exactly one terminal record. -/
theorem run_metadata_discipline_witness :
    (handleRunModel (.ok ()) (fun _ =>
      ⟨.ok (⟨"r".data, "s".data, [], [], ⟨2, 2, 2, 2⟩⟩,
            ⟨"r".data, "s".data, [], [], ⟨2, 2, 2, 2⟩⟩),
       .ok (), .ok (),
       .ok (⟨"r1".data⟩, ⟨"r2".data⟩), .ok "t".data⟩)).metadata.length = 1 :=
  (run_metadata_discipline (.ok ()) _).2.2 rfl (fun _ => ⟨_, rfl⟩) (fun _ => rfl)
    (fun _ => rfl) (fun _ => ⟨_, rfl⟩)

end FictionFlow
